import Mathlib

/-!
Verification development for the Travel_Back backend (a Node/Express proxy that
fuses a vision model, reverse geocoding and a POI index to identify the place
shown in a photo).

The repository contains three iterations of the same service:
  * `src/server.js` (first document) — the job-based variant: `POST /api/locate`
    creates a job, `runLocateJob` runs reverse-geocode → widening-radius POI
    search → model call, and `GET /api/locate_result` polls the job store.
    This variant REQUIRES `lat`/`lon` and has no repair re-invocation.
  * `src/unnamed/part_000` — the synchronous variant: budgeted-parallel geo
    context (`getGeoContext` with a geo cache), evidence-grounding check and a
    single repair re-invocation, plus a server-side photo-context cache used by
    `/api/chat`.
  * `src/unnamed/part_001` — a minimal synchronous variant (no geo context).

Below, pure data transformations are translated directly; network calls
(Nominatim, Overpass, the OpenAI model) are oracles passed as function
arguments; the JavaScript `Map` objects backing the caches and the job store
are modelled as association lists with single-key insert/lookup/delete;
`Date.now()` values are explicit `Nat` arguments.  JavaScript numbers that the
code only ever rounds and compares are modelled as `ℚ`/`ℤ`/`ℕ`; string
lowercasing and `String.prototype.includes` are modelled on the underlying
character lists (faithful for the ASCII data the code manipulates).
-/

set_option linter.unusedVariables false

namespace TravelBack

/-! ## Data model (spec §3, mirrored from the JS object shapes) -/

/-- Result of `reverseGeocode` (part_000 lines 156-183, server.js lines 225-281):
`{ displayName, city, state, country }`, each possibly `null`. -/
structure ReverseGeoResult where
  displayName : Option String
  city : Option String
  state : Option String
  country : Option String
deriving DecidableEq

/-- A normalized point of interest as produced by `fetchNearbyPois`
(part_000 line 273, server.js line 207): `{ name, type, distance_m, hint }`. -/
structure Poi where
  name : String
  type : String
  distance_m : Nat
  hint : String
deriving DecidableEq

/-- The consolidated geo context value `{ reverse, pois, radiusM }` built by
`getGeoContext` (part_000 line 340). -/
structure GeoContext where
  reverse : ReverseGeoResult
  pois : List Poi
  radiusM : Nat
deriving DecidableEq

/-- One place candidate `{ name, why, confidence, searchQuery }` as required by
the JSON schema sent to the model (part_000 lines 446-469). -/
structure Candidate where
  name : String
  why : String
  confidence : ℚ
  searchQuery : String
deriving DecidableEq

/-- A parsed structured model answer `{ photoContext, candidates }`
(the result of `JSON.parse(response.output_text)` under the strict JSON
schema, part_000 line 525, server.js line 439).  A missing/empty
`photoContext` is modelled as the empty string (JS falsy). -/
structure ModelAnswer where
  photoContext : String
  candidates : List Candidate
deriving DecidableEq

/-! ## Association lists: the model of the JavaScript `Map` stores
(`geoCache`, `photoContextCache`, `locateJobs`).  A `Map` has unique keys;
`assocSet` replaces in place like `Map.prototype.set`. -/

def assocLookup {κ β : Type} [DecidableEq κ] (k : κ) : List (κ × β) → Option β
  | [] => none
  | (k₁, v) :: rest => if k₁ = k then some v else assocLookup k rest

def assocSet {κ β : Type} [DecidableEq κ] (k : κ) (v : β) : List (κ × β) → List (κ × β)
  | [] => [(k, v)]
  | (k₁, v₁) :: rest => if k₁ = k then (k, v) :: rest else (k₁, v₁) :: assocSet k v rest

def assocDelete {κ β : Type} [DecidableEq κ] (k : κ) : List (κ × β) → List (κ × β)
  | [] => []
  | (k₁, v₁) :: rest => if k₁ = k then rest else (k₁, v₁) :: assocDelete k rest

/-! ## String helpers: JS `toLowerCase()` and `String.prototype.includes`,
modelled on character lists (faithful for ASCII content). -/

/-- JS `s.toLowerCase()` (ASCII range). -/
def jsToLower (s : String) : String := String.mk (s.data.map Char.toLower)

def includesAux (needle : List Char) : List Char → Bool
  | [] => needle.isEmpty
  | c :: rest => needle.isPrefixOf (c :: rest) || includesAux needle rest

/-- JS `hay.includes(needle)`: `needle` occurs as a contiguous substring. -/
def strIncludes (hay needle : String) : Bool := includesAux needle.data hay.data

/-! ## POI post-processing (part_000 `fetchNearbyPois` lines 277-289,
identical in server.js lines 211-222): sort ascending by `distance_m`
(`poiList.sort((a, b) => a.distance_m - b.distance_m)`, a stable sort),
de-duplicate by lowercase name keeping the first (nearest) occurrence, and
stop as soon as 25 entries have been kept. -/

def poiLe (a b : Poi) : Prop := a.distance_m ≤ b.distance_m

instance : DecidableRel poiLe := fun a b => Nat.decLe a.distance_m b.distance_m

instance : IsTotal Poi poiLe := ⟨fun a b => Nat.le_total a.distance_m b.distance_m⟩

instance : IsTrans Poi poiLe := ⟨fun _ _ _ h₁ h₂ => Nat.le_trans h₁ h₂⟩

/-- The de-duplication loop.  `seen` is the JS `Set` of lowercase names already
kept; `cap` is the remaining capacity (initially 25): the JS loop breaks right
after a push makes `out.length >= 25`, i.e. when the remaining capacity at the
moment of the push is 1. -/
def dedupePoisFrom (seen : List String) (cap : Nat) : List Poi → List Poi
  | [] => []
  | p :: rest =>
    if jsToLower p.name ∈ seen then dedupePoisFrom seen cap rest
    else if cap ≤ 1 then [p]
    else p :: dedupePoisFrom (jsToLower p.name :: seen) (cap - 1) rest

/-- The fixed cap on the POI list kept for the prompt (the literal `25`). -/
def POI_CAP : Nat := 25

/-- The pure tail of `fetchNearbyPois`: sorting, de-duplication and capping of
the mapped POI list.  `List.insertionSort` models the JS stable ascending sort
by `distance_m`. -/
def fetchNearbyPoisPost (poiList : List Poi) : List Poi :=
  dedupePoisFrom [] POI_CAP (List.insertionSort poiLe poiList)

/-! ## Geo cache and `getGeoContext` (part_000 lines 99-343).

`geoCacheKey` (lines 119-123) rounds the coordinates to 1e-5 degrees and
embeds them with the radius in a template string; since the string is only
used as a `Map` key and JS number formatting is injective, the key is modelled
as the triple of rounded micro-degree values and the radius.

The network part of `getGeoContext` is
`withDeadline(Promise.all([reverseGeocode(...).catch(default),
fetchNearbyPois(...).catch([])]), GEO_BUDGET_MS)`.  One oracle call models one
such round: either the pair of per-call outcomes is delivered in time
(`completed`, with each component either a success or the error swallowed by
its own `.catch`), or the overall budget elapses (`deadlineExceeded`, the
`withDeadline` helper, lines 146-154, resolves to `null`).  The oracle takes
the radius passed to `fetchNearbyPois` and the index of the upstream round,
so that cache hits are observable as the counter not advancing. -/

abbrev GeoKey := ℤ × ℤ × ℕ

/-- Cache key from coordinates rounded to 1e-5 degrees plus the radius
(part_000 lines 119-123). -/
def geoCacheKey (lat lon : ℚ) (radiusM : Nat) : GeoKey :=
  (round (lat * 100000), round (lon * 100000), radiusM)

/-- Geo cache TTL: 10 minutes in ms (part_000 line 99). -/
def GEO_TTL_MS : Nat := 10 * 60 * 1000

/-- Default Overpass radius of the synchronous variant (part_000 line 105). -/
def OVERPASS_RADIUS_M : Nat := 1500

/-- The all-null reverse-geocode default used when the lookup fails
(part_000 lines 308-311 and 322). -/
def nullReverse : ReverseGeoResult := ⟨none, none, none, none⟩

/-- Outcome of one budgeted-parallel geo round (see module comment above). -/
inductive GeoAttempt where
  | completed (rev : Except String ReverseGeoResult) (pois : Except String (List Poi))
  | deadlineExceeded

/-- The two `.catch` handlers inside the `Promise.all` (part_000 lines
308-315): a failed reverse geocode degrades to the all-null result, a failed
POI fetch degrades to the empty list. -/
def geoJoin (rev : Except String ReverseGeoResult) (pois : Except String (List Poi)) :
    ReverseGeoResult × List Poi :=
  (match rev with
    | .ok r => r
    | .error _ => nullReverse,
   match pois with
    | .ok p => p
    | .error _ => [])

/-- One cache entry `{ value, expiresAt }` of `geoCache` (part_000 line 341). -/
structure GeoEntry where
  value : GeoContext
  expiresAt : Nat
deriving DecidableEq

/-- The process-wide mutable geo state: the `geoCache` map plus an
instrumentation counter of upstream rounds actually performed (the
"call-count assertion on a stub provider" of spec §8). -/
structure GeoState where
  cache : List (GeoKey × GeoEntry)
  upstreamCalls : Nat
deriving DecidableEq

/-- The cache-miss path of `getGeoContext` (part_000 lines 299-342): run one
upstream round at `OVERPASS_RADIUS_M`, degrade to the all-null/empty defaults
when the budget elapsed, build `{ reverse, pois, radiusM: OVERPASS_RADIUS_M }`
and store it under `key` with expiry `Date.now() + GEO_TTL_MS` (the second
`Date.now()`, taken at completion time, is the argument `tEnd`). -/
def buildGeoContext (oracle : Nat → Nat → GeoAttempt) (tEnd : Nat) (key : GeoKey)
    (st : GeoState) : GeoContext × GeoState :=
  let rp : ReverseGeoResult × List Poi :=
    match oracle OVERPASS_RADIUS_M st.upstreamCalls with
    | .deadlineExceeded => (nullReverse, [])
    | .completed rev pois => geoJoin rev pois
  let value : GeoContext := ⟨rp.1, rp.2, OVERPASS_RADIUS_M⟩
  (value, ⟨assocSet key ⟨value, tEnd + GEO_TTL_MS⟩ st.cache, st.upstreamCalls + 1⟩)

/-- `getGeoContext(lat, lon)` (part_000 lines 291-343): serve from `geoCache`
when a fresh entry exists (`Date.now() < cached.expiresAt`, the first
`Date.now()` is `tStart`), otherwise build and cache. -/
def getGeoContext (oracle : Nat → Nat → GeoAttempt) (tStart tEnd : Nat) (lat lon : ℚ)
    (st : GeoState) : GeoContext × GeoState :=
  match assocLookup (geoCacheKey lat lon OVERPASS_RADIUS_M) st.cache with
  | some entry =>
    if tStart < entry.expiresAt then (entry.value, st)
    else buildGeoContext oracle tEnd (geoCacheKey lat lon OVERPASS_RADIUS_M) st
  | none => buildGeoContext oracle tEnd (geoCacheKey lat lon OVERPASS_RADIUS_M) st

/-! ## Photo-context cache (part_000 lines 57-91). -/

/-- Photo-context TTL: 10 minutes in ms (part_000 line 57). -/
def PHOTO_TTL_MS : Nat := 10 * 60 * 1000

/-- One entry `{ photoContext, expiresAt }` of `photoContextCache`. -/
structure PhotoEntry where
  photoContext : String
  expiresAt : Nat
deriving DecidableEq

abbrev PhotoCache := List (String × PhotoEntry)

/-- `setPhotoContext(req, photoContext)` (part_000 lines 69-72); the client
fingerprint `cacheKeyFromReq(req)` is the opaque argument `key`. -/
def setPhotoContext (key : String) (now : Nat) (photoContext : String)
    (cache : PhotoCache) : PhotoCache :=
  assocSet key ⟨photoContext, now + PHOTO_TTL_MS⟩ cache

/-- `getPhotoContext(req)` (part_000 lines 74-83): `null` when absent, delete
and return `null` when expired (`Date.now() > entry.expiresAt`), otherwise the
stored value. -/
def getPhotoContext (key : String) (now : Nat) (cache : PhotoCache) :
    Option String × PhotoCache :=
  match assocLookup key cache with
  | none => (none, cache)
  | some entry =>
    if entry.expiresAt < now then (none, assocDelete key cache)
    else (some entry.photoContext, cache)

/-- The photo-context string interpolated into the `/api/chat` prompt
(part_000 lines 692 and 705/720: `getPhotoContext(req)`). -/
def chatPhotoContext (key : String) (now : Nat) (cache : PhotoCache) : Option String :=
  (getPhotoContext key now cache).1

/-! ## Evidence-grounding check and the synchronous `/api/locate` pipeline
(part_000 lines 390-623). -/

/-- The `allowed`/`chosen` overlap test (part_000 lines 531-539): some chosen
candidate name and some POI name, both lowercased, contain one another as a
substring in either direction. -/
def anyMatches (pois : List Poi) (cands : List Candidate) : Bool :=
  (cands.map (fun c => jsToLower c.name)).any (fun nm =>
    (pois.map (fun p => jsToLower p.name)).any (fun a =>
      strIncludes nm a || strIncludes a nm))

/-- The conflict-sentinel test (part_000 lines 541-543): some candidate
justification, lowercased, contains the phrase `coordinate conflict`. -/
def mentionsConflict (cands : List Candidate) : Bool :=
  cands.any (fun c => strIncludes (jsToLower c.why) "coordinate conflict")

/-- The repair trigger (part_000 line 545): the model ignored the evidence. -/
def needsRepair (pois : List Poi) (cands : List Candidate) : Bool :=
  !anyMatches pois cands && !mentionsConflict cands

/-- Responses of the synchronous `/api/locate` handler that the model can
produce: a 400 error, the candidate list, or the 500
`Model did not return 3 candidates` contract violation.  -/
inductive SyncResponse where
  | badRequest (msg : String)
  | ok (candidates : List Candidate)
  | contractViolation
deriving DecidableEq

/-- The final candidate-count validation (part_000 lines 605-618, identical in
server.js second document lines 833-837 and part_001 lines 116-118). -/
def validateCandidates (ans : ModelAnswer) : SyncResponse :=
  if ans.candidates.length = 3 then .ok ans.candidates else .contractViolation

/-- Result of the post-parse portion of the synchronous handler: the HTTP
response, the number of repair re-invocations performed, and the photo-context
cache after the handler ran. -/
structure AfterParseRun where
  response : SyncResponse
  repairCalls : Nat
  photoCache : PhotoCache
deriving DecidableEq

/-- The synchronous handler from the first `JSON.parse` on (part_000 lines
525-618): store the first answer's `photoContext` if truthy; when location
and POIs are present and the grounding check fails, perform exactly one repair
call (`repair` is its parsed result), store its `photoContext` if truthy, and
return its candidates when there are exactly 3; in every other case fall
through to the final candidate-count validation of the first answer. -/
def locateAfterParse (key : String) (now : Nat) (hasLoc : Bool) (pois : List Poi)
    (first repair : ModelAnswer) (cache : PhotoCache) : AfterParseRun :=
  let cache₁ :=
    if first.photoContext ≠ "" then setPhotoContext key now first.photoContext cache
    else cache
  let hasPois := !pois.isEmpty
  if hasLoc && hasPois then
    if needsRepair pois first.candidates then
      let cache₂ :=
        if repair.photoContext ≠ "" then setPhotoContext key now repair.photoContext cache₁
        else cache₁
      if repair.candidates.length = 3 then ⟨.ok repair.candidates, 1, cache₂⟩
      else ⟨validateCandidates first, 1, cache₂⟩
    else ⟨validateCandidates first, 0, cache₁⟩
  else ⟨validateCandidates first, 0, cache₁⟩

/-- Which branch of the `locationBlock` template the prompt used
(part_000 lines 426-444); the prompt text itself is opaque content. -/
inductive PromptLocation where
  | withLocation (displayName : Option String) (radiusM : Nat) (pois : List Poi)
  | noLocation
deriving DecidableEq

/-- Observable outcome of one synchronous `/api/locate` request. -/
structure SyncRun where
  response : SyncResponse
  geoState : GeoState
  photoCache : PhotoCache
  modelCalls : Nat
  geoInvoked : Bool
  promptLocation : Option PromptLocation
deriving DecidableEq

/-- The synchronous `/api/locate` handler (part_000 lines 390-623).  `hasImage`
is `req.file` presence; `latQ`/`lonQ` are `Number(req.body.lat)` etc. when
finite (`none` for an absent field or a non-numeric string, both of which fail
`Number.isFinite`); `first`/`repair` are the parsed model answers of the two
possible invocations; `key` is the client fingerprint; `now` stands for the
handler's `Date.now()` readings. -/
def locateSyncHandler (oracle : Nat → Nat → GeoAttempt) (first repair : ModelAnswer)
    (key : String) (now : Nat) (hasImage : Bool) (latQ lonQ : Option ℚ)
    (gst : GeoState) (cache : PhotoCache) : SyncRun :=
  if !hasImage then ⟨.badRequest "Missing form field image", gst, cache, 0, false, none⟩
  else
    match latQ, lonQ with
    | some lat, some lon =>
      let g := getGeoContext oracle now now lat lon gst
      let ap := locateAfterParse key now true g.1.pois first repair cache
      ⟨ap.response, g.2, ap.photoCache, 1 + ap.repairCalls, true,
        some (.withLocation g.1.reverse.displayName g.1.radiusM g.1.pois)⟩
    | _, _ =>
      let ap := locateAfterParse key now false [] first repair cache
      ⟨ap.response, gst, ap.photoCache, 1 + ap.repairCalls, false, some .noLocation⟩

/-! ## The job-based variant (server.js first document, lines 283-540). -/

/-- Job statuses (server.js lines 308, 339, 449, 452 and the `pending`
initial value at line 486). -/
inductive JobStatus where
  | pending
  | geo
  | openai
  | done
  | error
deriving DecidableEq

/-- Default job TTL: 15 minutes in ms (server.js line 286). -/
def JOB_TTL_MS : Nat := 15 * 60 * 1000

/-- Upstream oracles of one `runLocateJob` execution: the outcome of
`reverseGeocode` (including its internal Nominatim→BigDataCloud fallback — an
error means both providers failed, server.js lines 225-281), the outcome of
`fetchNearbyPois` per queried radius (an error means all Overpass endpoints
failed, lines 130-167), and the parsed outcome of the model call. -/
structure JobOracles where
  reverse : Except String ReverseGeoResult
  poisAt : Nat → Except String (List Poi)
  model : Except String ModelAnswer

/-- The widening-radius loop of `runLocateJob` (server.js lines 317-333):
`usedRadius = r; pois = got;` for each radius in order, breaking as soon as
`pois.length >= POI_TARGET_COUNT`; a throwing fetch aborts the job. -/
def escalateLoopE (fetch : Nat → Except String (List Poi)) (target : Nat) :
    Nat → List Poi → List Nat → Except String (Nat × List Poi)
  | usedRadius, pois, [] => .ok (usedRadius, pois)
  | _, _, r :: rest =>
    match fetch r with
    | .error e => .error e
    | .ok got =>
      if target ≤ got.length then .ok (r, got) else escalateLoopE fetch target r got rest

/-- The radius ladder `[R, 2R, 4R]` (server.js lines 317-321). -/
def jobRadii (baseR : Nat) : List Nat := [baseR, 2 * baseR, 4 * baseR]

/-- The final state of a job record after `runLocateJob` (server.js lines
306-459) ran to completion, together with the successive values taken by
`job.status` (starting from the `pending` set at creation, line 486) and the
number of model invocations made. -/
structure JobRun where
  createdAt : Nat
  status : JobStatus
  trace : List JobStatus
  reverse : Option ReverseGeoResult
  radiusM : Option Nat
  pois : List Poi
  result : Option (String × List Candidate)
  errMsg : Option String
  modelCalls : Nat
deriving DecidableEq

/-- `runLocateJob(job)` (server.js lines 306-459): set status `geo`; reverse
geocode (a throw is caught and sets status `error`); run the widening-radius
POI loop (same failure handling) and record `job.geo.radiusM = usedRadius`,
`job.geo.pois = pois`; set status `openai`; invoke the model; a parsed answer
without exactly 3 candidates throws `Model did not return 3 candidates`;
otherwise store the result and set status `done`. -/
def runLocateJob (createdAt : Nat) (o : JobOracles) (baseR target : Nat) : JobRun :=
  match o.reverse with
  | .error e =>
    ⟨createdAt, .error, [.pending, .geo, .error], none, none, [], none, some e, 0⟩
  | .ok rev =>
    match escalateLoopE o.poisAt target baseR [] (jobRadii baseR) with
    | .error e =>
      ⟨createdAt, .error, [.pending, .geo, .error], some rev, none, [], none, some e, 0⟩
    | .ok (usedRadius, pois) =>
      match o.model with
      | .error e =>
        ⟨createdAt, .error, [.pending, .geo, .openai, .error], some rev, some usedRadius,
          pois, none, some e, 1⟩
      | .ok parsed =>
        if parsed.candidates.length = 3 then
          ⟨createdAt, .done, [.pending, .geo, .openai, .done], some rev, some usedRadius,
            pois, some (parsed.photoContext, parsed.candidates), none, 1⟩
        else
          ⟨createdAt, .error, [.pending, .geo, .openai, .error], some rev, some usedRadius,
            pois, none, some "Model did not return 3 candidates", 1⟩

/-- The legal status transitions of spec §4.5. -/
def statusStep : JobStatus → JobStatus → Bool
  | .pending, .geo => true
  | .geo, .openai => true
  | .openai, .done => true
  | .pending, .error => true
  | .geo, .error => true
  | .openai, .error => true
  | _, _ => false

/-- Every consecutive pair of the list is a legal transition. -/
def statusPathOk : List JobStatus → Bool
  | [] => true
  | [_] => true
  | a :: b :: rest => statusStep a b && statusPathOk (b :: rest)

def isTerminal : JobStatus → Bool
  | .done => true
  | .error => true
  | _ => false

/-- Responses of `GET /api/locate_result` (server.js lines 518-540). -/
inductive LocateResultResponse where
  | notFound
  | running (status : JobStatus) (reverse : Option String) (poisCount : Nat)
  | errorResp (msg : String)
  | doneResp (photoContext : String) (candidates : List Candidate)
deriving DecidableEq

/-- The `GET /api/locate_result` handler (server.js lines 518-540): 404 for an
unknown id; a progress view while non-terminal; the stored error or the stored
result once terminal. -/
def locateResultHandler (store : List (String × JobRun)) (jobId : String) :
    LocateResultResponse :=
  match assocLookup jobId store with
  | none => .notFound
  | some job =>
    match job.status with
    | .pending => .running job.status (job.reverse.bind (fun r => r.displayName)) job.pois.length
    | .geo => .running job.status (job.reverse.bind (fun r => r.displayName)) job.pois.length
    | .openai => .running job.status (job.reverse.bind (fun r => r.displayName)) job.pois.length
    | .error => .errorResp (job.errMsg.getD "Unknown error")
    | .done => .doneResp ((job.result.map Prod.fst).getD "") ((job.result.map Prod.snd).getD [])

/-- The periodic TTL sweep (server.js lines 299-304): delete every job with
`now - job.createdAt > JOB_TTL_MS`. -/
def sweepLocateJobs (now : Nat) (store : List (String × JobRun)) :
    List (String × JobRun) :=
  store.filter (fun kv => !(decide (JOB_TTL_MS < now - kv.2.createdAt)))

/-- Responses of the job-creating `POST /api/locate` validation (server.js
lines 465-512): `accepted` stands for the immediate 200 with a job id. -/
inductive CreateResponse where
  | badRequest (msg : String)
  | accepted
deriving DecidableEq

/-- The request validation of the job-based `POST /api/locate` (server.js
lines 467-476): reject a missing image, then reject missing or non-finite
`lat`/`lon` — this build is location-first. -/
def locateJobCreate (hasImage : Bool) (latQ lonQ : Option ℚ) : CreateResponse :=
  if !hasImage then .badRequest "Missing form field image"
  else
    match latQ, lonQ with
    | some _, some _ => .accepted
    | _, _ => .badRequest "Missing/invalid lat/lon. This server requires location."

end TravelBack

namespace TravelBack

/-! ## Supporting lemmas -/

theorem assocLookup_assocSet_self {κ β : Type} [DecidableEq κ] (k : κ) (v : β) :
    ∀ l : List (κ × β), assocLookup k (assocSet k v l) = some v := by
  intro l
  induction l with
  | nil => simp [assocSet, assocLookup]
  | cons kv rest ih =>
    obtain ⟨k₁, v₁⟩ := kv
    by_cases h : k₁ = k
    · simp [assocSet, assocLookup, h]
    · simp [assocSet, assocLookup, h, ih]

theorem assocLookup_eq_none_of_not_mem {κ β : Type} [DecidableEq κ] (k : κ) :
    ∀ l : List (κ × β), k ∉ l.map Prod.fst → assocLookup k l = none := by
  intro l
  induction l with
  | nil => intro _; rfl
  | cons kv rest ih =>
    obtain ⟨k₁, v₁⟩ := kv
    intro h
    simp only [List.map_cons, List.mem_cons] at h
    push_neg at h
    simp only [assocLookup]
    rw [if_neg (fun hk => h.1 hk.symm)]
    exact ih h.2

theorem dedupePoisFrom_sublist :
    ∀ (l : List Poi) (seen : List String) (cap : Nat),
      List.Sublist (dedupePoisFrom seen cap l) l := by
  intro l
  induction l with
  | nil => intro seen cap; simp [dedupePoisFrom]
  | cons p rest ih =>
    intro seen cap
    simp only [dedupePoisFrom]
    split
    · exact (ih seen cap).cons p
    · split
      · exact (List.nil_sublist rest).cons₂ p
      · exact (ih _ _).cons₂ p

theorem dedupePoisFrom_key_not_seen :
    ∀ (l : List Poi) (seen : List String) (cap : Nat) (p : Poi),
      p ∈ dedupePoisFrom seen cap l → jsToLower p.name ∉ seen := by
  intro l
  induction l with
  | nil => intro seen cap p h; simp [dedupePoisFrom] at h
  | cons q rest ih =>
    intro seen cap p h hin
    simp only [dedupePoisFrom] at h
    split at h
    · exact ih seen cap p h hin
    · split at h
      · rw [List.mem_singleton] at h
        subst h
        exact absurd hin (by assumption)
      · rcases List.mem_cons.mp h with h₁ | h₁
        · subst h₁
          exact absurd hin (by assumption)
        · exact ih _ _ p h₁ (List.mem_cons_of_mem _ hin)

theorem dedupePoisFrom_pairwise_keys :
    ∀ (l : List Poi) (seen : List String) (cap : Nat),
      List.Pairwise (fun p q => jsToLower p.name ≠ jsToLower q.name)
        (dedupePoisFrom seen cap l) := by
  intro l
  induction l with
  | nil => intro seen cap; simp [dedupePoisFrom]
  | cons q rest ih =>
    intro seen cap
    simp only [dedupePoisFrom]
    split
    · exact ih seen cap
    · split
      · simp
      · refine List.Pairwise.cons ?_ (ih _ _)
        intro x hx hkey
        have := dedupePoisFrom_key_not_seen rest _ _ x hx
        exact this (by rw [← hkey]; exact List.mem_cons_self _ _)

theorem dedupePoisFrom_length :
    ∀ (l : List Poi) (seen : List String) (cap : Nat), 1 ≤ cap →
      (dedupePoisFrom seen cap l).length ≤ cap := by
  intro l
  induction l with
  | nil => intro seen cap _; simp [dedupePoisFrom]
  | cons q rest ih =>
    intro seen cap hcap
    simp only [dedupePoisFrom]
    split
    · exact ih seen cap hcap
    · split
      · simpa using hcap
      · rename_i hgt
        have h1 : 1 ≤ cap - 1 := by omega
        have := ih (jsToLower q.name :: seen) (cap - 1) h1
        simp only [List.length_cons]
        omega

theorem dedupePoisFrom_min_dist :
    ∀ (l : List Poi), List.Pairwise poiLe l →
      ∀ (seen : List String) (cap : Nat) (p : Poi), p ∈ dedupePoisFrom seen cap l →
        ∀ q ∈ l, jsToLower q.name = jsToLower p.name → p.distance_m ≤ q.distance_m := by
  intro l
  induction l with
  | nil => intro _ seen cap p h; simp [dedupePoisFrom] at h
  | cons x rest ih =>
    intro hsorted seen cap p hp q hq hkey
    have hx : ∀ y ∈ rest, poiLe x y := (List.pairwise_cons.mp hsorted).1
    have hrest : List.Pairwise poiLe rest := (List.pairwise_cons.mp hsorted).2
    simp only [dedupePoisFrom] at hp
    split at hp
    · rename_i hseen
      rcases List.mem_cons.mp hq with h₁ | h₁
      · subst h₁
        have hnot := dedupePoisFrom_key_not_seen rest seen cap p hp
        exact absurd (hkey ▸ hseen) hnot
      · exact ih hrest seen cap p hp q h₁ hkey
    · split at hp
      · rw [List.mem_singleton] at hp
        subst hp
        rcases List.mem_cons.mp hq with h₁ | h₁
        · subst h₁; exact Nat.le_refl _
        · exact hx q h₁
      · rcases List.mem_cons.mp hp with h₁ | h₁
        · subst h₁
          rcases List.mem_cons.mp hq with h₂ | h₂
          · subst h₂; exact Nat.le_refl _
          · exact hx q h₂
        · rcases List.mem_cons.mp hq with h₂ | h₂
          · subst h₂
            have hnot := dedupePoisFrom_key_not_seen rest _ _ p h₁
            exact absurd (by rw [hkey]; exact List.mem_cons_self _ _) hnot
          · exact ih hrest _ _ p h₁ q h₂ hkey

end TravelBack

namespace TravelBack

theorem escalateLoopE_ok_of_acc (fetch : Nat → Except String (List Poi)) (target : Nat) :
    ∀ (radii : List Nat) (r₀ : Nat) (p₀ : List Poi), fetch r₀ = .ok p₀ →
      ∀ u ps, escalateLoopE fetch target r₀ p₀ radii = .ok (u, ps) → fetch u = .ok ps := by
  intro radii
  induction radii with
  | nil =>
    intro r₀ p₀ h₀ u ps h
    simp only [escalateLoopE, Except.ok.injEq, Prod.mk.injEq] at h
    obtain ⟨rfl, rfl⟩ := h
    exact h₀
  | cons r rest ih =>
    intro r₀ p₀ h₀ u ps h
    rcases hf : fetch r with e | got
    · simp only [escalateLoopE, hf] at h
      exact Except.noConfusion h
    · simp only [escalateLoopE, hf] at h
      split at h
      · simp only [Except.ok.injEq, Prod.mk.injEq] at h
        obtain ⟨rfl, rfl⟩ := h
        exact hf
      · exact ih r got hf u ps h

theorem escalateLoopE_spec (fetch : Nat → Except String (List Poi)) (target : Nat)
    (r₀ : Nat) (p₀ : List Poi) (r : Nat) (rest : List Nat) :
    ∀ u ps, escalateLoopE fetch target r₀ p₀ (r :: rest) = .ok (u, ps) → fetch u = .ok ps := by
  intro u ps h
  rcases hf : fetch r with e | got
  · simp only [escalateLoopE, hf] at h
    exact Except.noConfusion h
  · simp only [escalateLoopE, hf] at h
    split at h
    · simp only [Except.ok.injEq, Prod.mk.injEq] at h
      obtain ⟨rfl, rfl⟩ := h
      exact hf
    · exact escalateLoopE_ok_of_acc fetch target rest r got hf u ps h

/-- C7: for every POI search, the post-processed sequence is sorted
non-decreasing by `distance_m`, contains at most one entry per
case-insensitive name, draws its elements verbatim from the input, keeps for
each retained name the entry with the smallest distance among all same-named
input entries, and never exceeds 25 elements — regardless of how many
elements the upstream spatial query returned. -/
theorem c7_claim : ∀ poiList : List Poi,
    List.Sorted poiLe (fetchNearbyPoisPost poiList)
    ∧ List.Pairwise (fun p q => jsToLower p.name ≠ jsToLower q.name)
        (fetchNearbyPoisPost poiList)
    ∧ (fetchNearbyPoisPost poiList).length ≤ 25
    ∧ (∀ p ∈ fetchNearbyPoisPost poiList, p ∈ poiList)
    ∧ ∀ p ∈ fetchNearbyPoisPost poiList, ∀ q ∈ poiList,
        jsToLower q.name = jsToLower p.name → p.distance_m ≤ q.distance_m := by
  intro poiList
  have hsort : List.Sorted poiLe (List.insertionSort poiLe poiList) :=
    List.sorted_insertionSort poiLe poiList
  have hsub := dedupePoisFrom_sublist (List.insertionSort poiLe poiList) [] POI_CAP
  have hperm := List.perm_insertionSort poiLe poiList
  simp only [fetchNearbyPoisPost]
  refine ⟨List.Pairwise.sublist hsub hsort, dedupePoisFrom_pairwise_keys _ _ _, ?_, ?_, ?_⟩
  · exact dedupePoisFrom_length _ _ _ (by norm_num [POI_CAP])
  · intro p hp
    exact hperm.subset (hsub.subset hp)
  · intro p hp q hq hkey
    exact dedupePoisFrom_min_dist _ hsort _ _ p hp q (hperm.symm.subset hq) hkey

/-- Concrete input for the C7 witness: two same-named POIs (different case,
different distances) plus a third one. -/
def c7List : List Poi :=
  [⟨"Louvre", "museum", 120, "tourism=museum"⟩,
   ⟨"louvre", "museum", 40, "tourism=museum"⟩,
   ⟨"Eiffel Tower", "attraction", 400, "tourism=attraction"⟩]

theorem c7_witness :
    (⟨"louvre", "museum", 40, "tourism=museum"⟩ : Poi).distance_m ≤
      (⟨"Louvre", "museum", 120, "tourism=museum"⟩ : Poi).distance_m
    ∧ (fetchNearbyPoisPost c7List).length ≤ 25 :=
  ⟨(c7_claim c7List).2.2.2.2 ⟨"louvre", "museum", 40, "tourism=museum"⟩ (by decide)
      ⟨"Louvre", "museum", 120, "tourism=museum"⟩ (by decide) (by decide),
   (c7_claim c7List).2.2.1⟩

/-- C4: the job pipeline records in `job.geo.radiusM` exactly the radius whose
POI query produced `job.geo.pois` (even when the widening loop escalated), and
the synchronous builder stamps `GeoContext.radiusM` with the very
`OVERPASS_RADIUS_M` at which its single upstream round was invoked. -/
theorem c4_claim :
    (∀ createdAt o baseR target u,
        (runLocateJob createdAt o baseR target).radiusM = some u →
        o.poisAt u = .ok (runLocateJob createdAt o baseR target).pois)
    ∧ (∀ oracle tEnd key st rev pois,
        oracle OVERPASS_RADIUS_M st.upstreamCalls = .completed rev pois →
        (buildGeoContext oracle tEnd key st).1 =
          ⟨(geoJoin rev pois).1, (geoJoin rev pois).2, OVERPASS_RADIUS_M⟩) := by
  constructor
  · intro createdAt o baseR target u hu
    obtain ⟨orev, opois, omodel⟩ := o
    rcases orev with e | rev
    · simp [runLocateJob] at hu
    · rcases hesc : escalateLoopE opois target baseR [] (jobRadii baseR) with e | up
      · simp [runLocateJob, hesc] at hu
      · obtain ⟨u₁, ps⟩ := up
        have hfetch : opois u₁ = .ok ps :=
          escalateLoopE_spec opois target baseR [] baseR [2 * baseR, 4 * baseR] u₁ ps
            (by simpa [jobRadii] using hesc)
        rcases omodel with e | parsed
        · simp only [runLocateJob, hesc, Option.some.injEq] at hu ⊢
          subst hu
          exact hfetch
        · by_cases h3 : parsed.candidates.length = 3
          · simp only [runLocateJob, hesc, h3, if_true, Option.some.injEq] at hu ⊢
            subst hu
            exact hfetch
          · simp only [runLocateJob, hesc, h3, if_false, Option.some.injEq] at hu ⊢
            subst hu
            exact hfetch
  · intro oracle tEnd key st rev pois h
    simp [buildGeoContext, h]

theorem c4_witness :
    (fun _ : Nat => (.ok [] : Except String (List Poi))) 4800 =
      .ok (runLocateJob 0
        ⟨.ok nullReverse, fun _ => .ok [], .ok ⟨"ctx", []⟩⟩ 1200 8).pois :=
  c4_claim.1 0 ⟨.ok nullReverse, fun _ => .ok [], .ok ⟨"ctx", []⟩⟩ 1200 8 4800 (by decide)

end TravelBack

namespace TravelBack

theorem getGeoContext_miss (oracle : Nat → Nat → GeoAttempt) (tStart tEnd : Nat)
    (lat lon : ℚ) (st : GeoState)
    (hmiss : assocLookup (geoCacheKey lat lon OVERPASS_RADIUS_M) st.cache = none) :
    getGeoContext oracle tStart tEnd lat lon st =
      buildGeoContext oracle tEnd (geoCacheKey lat lon OVERPASS_RADIUS_M) st := by
  simp [getGeoContext, hmiss]

theorem buildGeoContext_cache (oracle : Nat → Nat → GeoAttempt) (tEnd : Nat) (key : GeoKey)
    (st : GeoState) :
    (buildGeoContext oracle tEnd key st).2.cache =
      assocSet key ⟨(buildGeoContext oracle tEnd key st).1, tEnd + GEO_TTL_MS⟩ st.cache := by
  simp [buildGeoContext]

theorem buildGeoContext_calls (oracle : Nat → Nat → GeoAttempt) (tEnd : Nat) (key : GeoKey)
    (st : GeoState) :
    (buildGeoContext oracle tEnd key st).2.upstreamCalls = st.upstreamCalls + 1 := by
  simp [buildGeoContext]

theorem getGeoContext_hit (oracle : Nat → Nat → GeoAttempt) (tStart tEnd : Nat)
    (lat lon : ℚ) (st : GeoState) (entry : GeoEntry)
    (hhit : assocLookup (geoCacheKey lat lon OVERPASS_RADIUS_M) st.cache = some entry)
    (hfresh : tStart < entry.expiresAt) :
    getGeoContext oracle tStart tEnd lat lon st = (entry.value, st) := by
  simp [getGeoContext, hhit, hfresh]

theorem fresh_read_after_miss (oracle : Nat → Nat → GeoAttempt) (t₁ t₁e t₂ t₂e : Nat)
    (lat lon lat₂ lon₂ : ℚ) (st : GeoState)
    (hkey : geoCacheKey lat₂ lon₂ OVERPASS_RADIUS_M = geoCacheKey lat lon OVERPASS_RADIUS_M)
    (hmiss : assocLookup (geoCacheKey lat lon OVERPASS_RADIUS_M) st.cache = none)
    (ht : t₂ < t₁e + GEO_TTL_MS) :
    getGeoContext oracle t₂ t₂e lat₂ lon₂ (getGeoContext oracle t₁ t₁e lat lon st).2 =
      getGeoContext oracle t₁ t₁e lat lon st := by
  rw [getGeoContext_miss oracle t₁ t₁e lat lon st hmiss]
  have hlook : assocLookup (geoCacheKey lat₂ lon₂ OVERPASS_RADIUS_M)
      (buildGeoContext oracle t₁e (geoCacheKey lat lon OVERPASS_RADIUS_M) st).2.cache =
      some ⟨(buildGeoContext oracle t₁e (geoCacheKey lat lon OVERPASS_RADIUS_M) st).1,
        t₁e + GEO_TTL_MS⟩ := by
    rw [hkey, buildGeoContext_cache]
    exact assocLookup_assocSet_self _ _ _
  rw [getGeoContext, hlook]
  simp [ht]

/-- C6: a second geo-context build whose coordinates round to the same cache
key, issued while the entry written by a first (cache-missing) build is still
fresh, returns the identical `GeoContext` and leaves the state — including the
upstream call counter — untouched; whereas a build that finds only an expired
entry performs a fresh upstream round. -/
theorem c6_claim :
    (∀ (oracle : Nat → Nat → GeoAttempt) (t₁ t₁e t₂ t₂e : Nat) (lat lon lat₂ lon₂ : ℚ)
        (st : GeoState),
        geoCacheKey lat₂ lon₂ OVERPASS_RADIUS_M = geoCacheKey lat lon OVERPASS_RADIUS_M →
        assocLookup (geoCacheKey lat lon OVERPASS_RADIUS_M) st.cache = none →
        t₂ < t₁e + GEO_TTL_MS →
        getGeoContext oracle t₂ t₂e lat₂ lon₂ (getGeoContext oracle t₁ t₁e lat lon st).2 =
          getGeoContext oracle t₁ t₁e lat lon st)
    ∧ (∀ (oracle : Nat → Nat → GeoAttempt) (t₂ t₂e : Nat) (lat lon : ℚ) (st : GeoState)
        (entry : GeoEntry),
        assocLookup (geoCacheKey lat lon OVERPASS_RADIUS_M) st.cache = some entry →
        entry.expiresAt ≤ t₂ →
        (getGeoContext oracle t₂ t₂e lat lon st).2.upstreamCalls = st.upstreamCalls + 1) := by
  constructor
  · exact fresh_read_after_miss
  · intro oracle t₂ t₂e lat lon st entry hhit hexp
    have hnot : ¬ t₂ < entry.expiresAt := by omega
    rw [getGeoContext, hhit]
    simp only [if_neg hnot]
    exact buildGeoContext_calls _ _ _ _

theorem c6_witness :
    getGeoContext (fun _ _ => .deadlineExceeded) 1000 1000 0 0
        (getGeoContext (fun _ _ => .deadlineExceeded) 0 0 0 0 ⟨[], 0⟩).2 =
      getGeoContext (fun _ _ => .deadlineExceeded) 0 0 0 0 ⟨[], 0⟩ :=
  c6_claim.1 (fun _ _ => .deadlineExceeded) 0 0 1000 1000 0 0 0 0 ⟨[], 0⟩ rfl rfl
    (by norm_num [GEO_TTL_MS])

/-- The degraded geo context produced when the overall geo budget elapses or
both enrichment lookups fail (part_000 lines 322-340). -/
def degradedGeoContext : GeoContext := ⟨nullReverse, [], OVERPASS_RADIUS_M⟩

/-- C9: when the budget elapses (or both lookups fail) on a cache-missing
build, the degraded all-null/empty context is returned, written to the geo
cache with the same `GEO_TTL_MS` expiry a successful result would get, and
every later build for the same rounded key within that window is served from
the cache with no further upstream round. -/
theorem c9_claim :
    ∀ (oracle : Nat → Nat → GeoAttempt) (t₁ t₁e : Nat) (lat lon : ℚ) (st : GeoState),
      assocLookup (geoCacheKey lat lon OVERPASS_RADIUS_M) st.cache = none →
      (oracle OVERPASS_RADIUS_M st.upstreamCalls = .deadlineExceeded ∨
        ∃ e₁ e₂, oracle OVERPASS_RADIUS_M st.upstreamCalls = .completed (.error e₁) (.error e₂)) →
      (getGeoContext oracle t₁ t₁e lat lon st).1 = degradedGeoContext
      ∧ assocLookup (geoCacheKey lat lon OVERPASS_RADIUS_M)
          (getGeoContext oracle t₁ t₁e lat lon st).2.cache =
          some ⟨degradedGeoContext, t₁e + GEO_TTL_MS⟩
      ∧ (getGeoContext oracle t₁ t₁e lat lon st).2.upstreamCalls = st.upstreamCalls + 1
      ∧ ∀ (t₂ t₂e : Nat) (lat₂ lon₂ : ℚ),
          geoCacheKey lat₂ lon₂ OVERPASS_RADIUS_M = geoCacheKey lat lon OVERPASS_RADIUS_M →
          t₂ < t₁e + GEO_TTL_MS →
          getGeoContext oracle t₂ t₂e lat₂ lon₂ (getGeoContext oracle t₁ t₁e lat lon st).2 =
            (degradedGeoContext, (getGeoContext oracle t₁ t₁e lat lon st).2) := by
  intro oracle t₁ t₁e lat lon st hmiss hfail
  have hval : (getGeoContext oracle t₁ t₁e lat lon st).1 = degradedGeoContext := by
    rw [getGeoContext_miss oracle t₁ t₁e lat lon st hmiss]
    rcases hfail with h | ⟨e₁, e₂, h⟩
    · simp [buildGeoContext, h, degradedGeoContext]
    · simp [buildGeoContext, h, geoJoin, degradedGeoContext]
  refine ⟨hval, ?_, ?_, ?_⟩
  · rw [getGeoContext_miss oracle t₁ t₁e lat lon st hmiss] at hval ⊢
    rw [buildGeoContext_cache, hval]
    exact assocLookup_assocSet_self _ _ _
  · rw [getGeoContext_miss oracle t₁ t₁e lat lon st hmiss]
    exact buildGeoContext_calls _ _ _ _
  · intro t₂ t₂e lat₂ lon₂ hkey ht
    rw [fresh_read_after_miss oracle t₁ t₁e t₂ t₂e lat lon lat₂ lon₂ st hkey hmiss ht]
    rw [← hval]

theorem c9_witness :
    (getGeoContext (fun _ _ => .completed (.error "deadline Nominatim 1500ms")
        (.error "Overpass failed (no endpoints succeeded)")) 0 7 0 0 ⟨[], 0⟩).1 =
      degradedGeoContext
    ∧ (getGeoContext (fun _ _ => .completed (.error "deadline Nominatim 1500ms")
        (.error "Overpass failed (no endpoints succeeded)")) 0 7 0 0 ⟨[], 0⟩).2.upstreamCalls = 1 :=
  ⟨(c9_claim (fun _ _ => .completed (.error "deadline Nominatim 1500ms")
        (.error "Overpass failed (no endpoints succeeded)")) 0 7 0 0 ⟨[], 0⟩ rfl
      (Or.inr ⟨"deadline Nominatim 1500ms", "Overpass failed (no endpoints succeeded)", rfl⟩)).1,
   (c9_claim (fun _ _ => .completed (.error "deadline Nominatim 1500ms")
        (.error "Overpass failed (no endpoints succeeded)")) 0 7 0 0 ⟨[], 0⟩ rfl
      (Or.inr ⟨"deadline Nominatim 1500ms", "Overpass failed (no endpoints succeeded)", rfl⟩)).2.2.1⟩

end TravelBack

namespace TravelBack

/-- C2 counterexample: in the job-based variant a total reverse-geocoding
failure (both providers) or a total POI-lookup failure (all Overpass
endpoints) makes `runLocateJob` end the user-visible pipeline in job status
`error` without ever invoking the model — contradicting the claim that such
failures never abort the pipeline. -/
theorem c2_counterexample :
    (runLocateJob 0 ⟨.error "Fallback reverse failed: 503", fun _ => .ok [],
        .ok ⟨"ctx", []⟩⟩ 1200 8).status = .error
    ∧ (runLocateJob 0 ⟨.error "Fallback reverse failed: 503", fun _ => .ok [],
        .ok ⟨"ctx", []⟩⟩ 1200 8).trace = [.pending, .geo, .error]
    ∧ (runLocateJob 0 ⟨.error "Fallback reverse failed: 503", fun _ => .ok [],
        .ok ⟨"ctx", []⟩⟩ 1200 8).modelCalls = 0
    ∧ (runLocateJob 0 ⟨.ok nullReverse, fun _ => .error "Overpass HTTP 504",
        .ok ⟨"ctx", []⟩⟩ 1200 8).status = .error
    ∧ (runLocateJob 0 ⟨.ok nullReverse, fun _ => .error "Overpass HTTP 504",
        .ok ⟨"ctx", []⟩⟩ 1200 8).modelCalls = 0 := by
  refine ⟨rfl, rfl, rfl, ?_, ?_⟩ <;> rfl

/-- C2 as amended: in the budgeted-parallel builder of the synchronous
variant, a reverse-geocode failure degrades to the all-null result, a POI
failure degrades to the empty list, a blown overall budget degrades to the
all-null/empty context, and the synchronous pipeline always proceeds to the
model invocation; the job-based variant, by contrast, ends the job in status
`error` (before any model call) when reverse geocoding or the POI lookup
fails outright. -/
theorem c2_claim :
    (∀ (e : String) (pv : Except String (List Poi)), (geoJoin (.error e) pv).1 = nullReverse)
    ∧ (∀ (rv : Except String ReverseGeoResult) (e : String), (geoJoin rv (.error e)).2 = [])
    ∧ (∀ (oracle : Nat → Nat → GeoAttempt) (tS tE : Nat) (lat lon : ℚ) (st : GeoState),
        assocLookup (geoCacheKey lat lon OVERPASS_RADIUS_M) st.cache = none →
        oracle OVERPASS_RADIUS_M st.upstreamCalls = .deadlineExceeded →
        (getGeoContext oracle tS tE lat lon st).1 = degradedGeoContext)
    ∧ (∀ (oracle : Nat → Nat → GeoAttempt) (first repair : ModelAnswer) (key : String)
        (now : Nat) (latQ lonQ : Option ℚ) (gst : GeoState) (cache : PhotoCache),
        1 ≤ (locateSyncHandler oracle first repair key now true latQ lonQ gst cache).modelCalls)
    ∧ (∀ (createdAt : Nat) (e : String) (opois : Nat → Except String (List Poi))
        (omodel : Except String ModelAnswer) (baseR target : Nat),
        (runLocateJob createdAt ⟨.error e, opois, omodel⟩ baseR target).trace =
          [.pending, .geo, .error]
        ∧ (runLocateJob createdAt ⟨.error e, opois, omodel⟩ baseR target).modelCalls = 0)
    ∧ (∀ (createdAt : Nat) (rev : ReverseGeoResult) (opois : Nat → Except String (List Poi))
        (omodel : Except String ModelAnswer) (baseR target : Nat) (e : String),
        escalateLoopE opois target baseR [] (jobRadii baseR) = .error e →
        (runLocateJob createdAt ⟨.ok rev, opois, omodel⟩ baseR target).trace =
          [.pending, .geo, .error]
        ∧ (runLocateJob createdAt ⟨.ok rev, opois, omodel⟩ baseR target).modelCalls = 0) := by
  refine ⟨?_, ?_, ?_, ?_, ?_, ?_⟩
  · intro e pv; simp [geoJoin]
  · intro rv e; simp [geoJoin]
  · intro oracle tS tE lat lon st hmiss h
    rw [getGeoContext_miss oracle tS tE lat lon st hmiss]
    simp [buildGeoContext, h, degradedGeoContext]
  · intro oracle first repair key now latQ lonQ gst cache
    rcases latQ with _ | lat <;> rcases lonQ with _ | lon <;>
      simp [locateSyncHandler]
  · intro createdAt e opois omodel baseR target
    exact ⟨rfl, rfl⟩
  · intro createdAt rev opois omodel baseR target e h
    constructor <;> simp [runLocateJob, h]

theorem c2_witness :
    1 ≤ (locateSyncHandler (fun _ _ => .deadlineExceeded) ⟨"ctx", []⟩ ⟨"ctx", []⟩
        "client" 0 true (some 0) (some 0) ⟨[], 0⟩ []).modelCalls :=
  c2_claim.2.2.2.1 (fun _ _ => .deadlineExceeded) ⟨"ctx", []⟩ ⟨"ctx", []⟩
    "client" 0 (some 0) (some 0) ⟨[], 0⟩ []

end TravelBack

namespace TravelBack

theorem sweep_expired_lookup (now : Nat) :
    ∀ (store : List (String × JobRun)) (jobId : String) (job : JobRun),
      (store.map Prod.fst).Nodup →
      assocLookup jobId store = some job →
      JOB_TTL_MS < now - job.createdAt →
      assocLookup jobId (sweepLocateJobs now store) = none := by
  intro store
  induction store with
  | nil => intro jobId job _ h _; simp [assocLookup] at h
  | cons kv rest ih =>
    obtain ⟨k₁, j₁⟩ := kv
    intro jobId job hnodup hlook hexp
    simp only [List.map_cons, List.nodup_cons] at hnodup
    obtain ⟨hnd1, hnd2⟩ := hnodup
    simp only [sweepLocateJobs, List.filter_cons]
    by_cases hk : k₁ = jobId
    · subst hk
      simp [assocLookup] at hlook
      subst hlook
      rw [if_neg (by simp [hexp])]
      apply assocLookup_eq_none_of_not_mem
      intro hmem
      exact hnd1 ((List.Sublist.map Prod.fst (List.filter_sublist rest)).subset hmem)
    · simp only [assocLookup, if_neg hk] at hlook
      split
      · simp only [assocLookup, if_neg hk]
        exact ih jobId job hnd2 hlook hexp
      · exact ih jobId job hnd2 hlook hexp

/-- C5: the successive values of a job's status always follow
`pending → geo → openai → done` or stop at `error` from a non-terminal state;
the trace starts at `pending`, ends at the job's final status, and no
terminal status occurs before the end.  Reading the store is pure: a stored
`done` job always answers with exactly its stored result, a stored `error`
job with its stored message, an unknown id with 404, and after the TTL sweep
an expired job answers 404. -/
theorem c5_claim :
    (∀ (createdAt : Nat) (o : JobOracles) (baseR target : Nat),
        statusPathOk (runLocateJob createdAt o baseR target).trace = true
        ∧ (runLocateJob createdAt o baseR target).trace.head? = some .pending
        ∧ ((runLocateJob createdAt o baseR target).trace.getLast? = some .done ∨
            (runLocateJob createdAt o baseR target).trace.getLast? = some .error)
        ∧ (∀ s ∈ (runLocateJob createdAt o baseR target).trace.dropLast,
            isTerminal s = false)
        ∧ (runLocateJob createdAt o baseR target).trace.getLast? =
            some (runLocateJob createdAt o baseR target).status)
    ∧ (∀ (store : List (String × JobRun)) (jobId : String) (job : JobRun)
          (pc : String) (cs : List Candidate),
        assocLookup jobId store = some job → job.status = .done →
        job.result = some (pc, cs) → locateResultHandler store jobId = .doneResp pc cs)
    ∧ (∀ (store : List (String × JobRun)) (jobId : String) (job : JobRun),
        assocLookup jobId store = some job → job.status = .error →
        locateResultHandler store jobId = .errorResp (job.errMsg.getD "Unknown error"))
    ∧ (∀ (store : List (String × JobRun)) (jobId : String),
        assocLookup jobId store = none → locateResultHandler store jobId = .notFound)
    ∧ (∀ (now : Nat) (store : List (String × JobRun)) (jobId : String) (job : JobRun),
        (store.map Prod.fst).Nodup →
        assocLookup jobId store = some job → JOB_TTL_MS < now - job.createdAt →
        locateResultHandler (sweepLocateJobs now store) jobId = .notFound) := by
  refine ⟨?_, ?_, ?_, ?_, ?_⟩
  · intro createdAt o baseR target
    obtain ⟨orev, opois, omodel⟩ := o
    rcases orev with e | rev
    · refine ⟨?_, ?_, Or.inr ?_, ?_, ?_⟩ <;> simp only [runLocateJob] <;> decide
    · rcases hesc : escalateLoopE opois target baseR [] (jobRadii baseR) with e | up
      · refine ⟨?_, ?_, Or.inr ?_, ?_, ?_⟩ <;> simp only [runLocateJob, hesc] <;> decide
      · obtain ⟨u₁, ps⟩ := up
        rcases omodel with e | parsed
        · refine ⟨?_, ?_, Or.inr ?_, ?_, ?_⟩ <;> simp only [runLocateJob, hesc] <;> decide
        · by_cases h3 : parsed.candidates.length = 3
          · refine ⟨?_, ?_, Or.inl ?_, ?_, ?_⟩ <;>
              simp only [runLocateJob, hesc, h3, if_true] <;> decide
          · refine ⟨?_, ?_, Or.inr ?_, ?_, ?_⟩ <;>
              simp only [runLocateJob, hesc, h3, if_false] <;> decide
  · intro store jobId job pc cs hlook hstatus hres
    simp [locateResultHandler, hlook, hstatus, hres]
  · intro store jobId job hlook hstatus
    simp [locateResultHandler, hlook, hstatus]
  · intro store jobId hlook
    simp [locateResultHandler, hlook]
  · intro now store jobId job hnd hlook hexp
    have h := sweep_expired_lookup now store jobId job hnd hlook hexp
    simp [locateResultHandler, h]

theorem c5_witness :
    statusPathOk (runLocateJob 0
        ⟨.ok nullReverse, fun _ => .ok [], .ok ⟨"ctx", []⟩⟩ 1200 8).trace = true
    ∧ locateResultHandler [] "missing" = .notFound :=
  ⟨(c5_claim.1 0 ⟨.ok nullReverse, fun _ => .ok [], .ok ⟨"ctx", []⟩⟩ 1200 8).1,
   c5_claim.2.2.2.1 [] "missing" rfl⟩

end TravelBack

namespace TravelBack

theorem locateAfterParse_response (key : String) (now : Nat) (hasLoc : Bool)
    (pois : List Poi) (first repair : ModelAnswer) (cache : PhotoCache) :
    (locateAfterParse key now hasLoc pois first repair cache).response =
      (if hasLoc && !pois.isEmpty then
        if needsRepair pois first.candidates then
          if repair.candidates.length = 3 then SyncResponse.ok repair.candidates
          else validateCandidates first
        else validateCandidates first
      else validateCandidates first) := by
  simp only [locateAfterParse]
  split_ifs <;> rfl

theorem locateAfterParse_repairCalls (key : String) (now : Nat) (hasLoc : Bool)
    (pois : List Poi) (first repair : ModelAnswer) (cache : PhotoCache) :
    (locateAfterParse key now hasLoc pois first repair cache).repairCalls =
      (if hasLoc && !pois.isEmpty then
        if needsRepair pois first.candidates then 1 else 0
      else 0) := by
  simp only [locateAfterParse]
  split_ifs <;> rfl

theorem validateCandidates_ok (first : ModelAnswer) (cs : List Candidate)
    (h : validateCandidates first = .ok cs) : cs.length = 3 ∧ cs = first.candidates := by
  simp only [validateCandidates] at h
  split_ifs at h with h3
  simp only [SyncResponse.ok.injEq] at h
  subst h
  exact ⟨h3, rfl⟩

theorem validateCandidates_fail (first : ModelAnswer)
    (h : first.candidates.length ≠ 3) : validateCandidates first = .contractViolation := by
  simp [validateCandidates, h]

/-- C3: a delivered locate result always carries exactly 3 candidates, taken
verbatim from one of the two model answers (never padded or truncated); when
candidate-count validation fails after the at-most-one repair attempt, the
synchronous variant answers the 500 contract violation and the job variant
ends in status `error` with no stored result. -/
theorem c3_claim :
    (∀ (key : String) (now : Nat) (hasLoc : Bool) (pois : List Poi)
        (first repair : ModelAnswer) (cache : PhotoCache) (cs : List Candidate),
        (locateAfterParse key now hasLoc pois first repair cache).response = .ok cs →
        cs.length = 3 ∧ (cs = first.candidates ∨ cs = repair.candidates))
    ∧ (∀ (key : String) (now : Nat) (hasLoc : Bool) (pois : List Poi)
        (first repair : ModelAnswer) (cache : PhotoCache),
        first.candidates.length ≠ 3 → repair.candidates.length ≠ 3 →
        (locateAfterParse key now hasLoc pois first repair cache).response =
          .contractViolation)
    ∧ (∀ (createdAt : Nat) (o : JobOracles) (baseR target : Nat) (parsed : ModelAnswer),
        o.model = .ok parsed → parsed.candidates.length ≠ 3 →
        (runLocateJob createdAt o baseR target).status = .error
        ∧ (runLocateJob createdAt o baseR target).result = none)
    ∧ (∀ (createdAt : Nat) (o : JobOracles) (baseR target : Nat) (pc : String)
        (cs : List Candidate),
        (runLocateJob createdAt o baseR target).result = some (pc, cs) →
        cs.length = 3 ∧ o.model = .ok ⟨pc, cs⟩) := by
  refine ⟨?_, ?_, ?_, ?_⟩
  · intro key now hasLoc pois first repair cache cs h
    rw [locateAfterParse_response] at h
    by_cases h₁ : hasLoc && !pois.isEmpty
    · rw [if_pos h₁] at h
      by_cases h₂ : needsRepair pois first.candidates
      · rw [if_pos h₂] at h
        by_cases h₃ : repair.candidates.length = 3
        · rw [if_pos h₃] at h
          simp only [SyncResponse.ok.injEq] at h
          subst h
          exact ⟨h₃, Or.inr rfl⟩
        · rw [if_neg h₃] at h
          obtain ⟨hl, he⟩ := validateCandidates_ok first cs h
          exact ⟨hl, Or.inl he⟩
      · rw [if_neg h₂] at h
        obtain ⟨hl, he⟩ := validateCandidates_ok first cs h
        exact ⟨hl, Or.inl he⟩
    · rw [if_neg h₁] at h
      obtain ⟨hl, he⟩ := validateCandidates_ok first cs h
      exact ⟨hl, Or.inl he⟩
  · intro key now hasLoc pois first repair cache hfirst hrepair
    rw [locateAfterParse_response]
    by_cases h₁ : hasLoc && !pois.isEmpty
    · rw [if_pos h₁]
      by_cases h₂ : needsRepair pois first.candidates
      · rw [if_pos h₂, if_neg hrepair]
        exact validateCandidates_fail first hfirst
      · rw [if_neg h₂]
        exact validateCandidates_fail first hfirst
    · rw [if_neg h₁]
      exact validateCandidates_fail first hfirst
  · intro createdAt o baseR target parsed hm hlen
    obtain ⟨orev, opois, omodel⟩ := o
    simp only at hm
    subst hm
    rcases orev with e | rev
    · exact ⟨rfl, rfl⟩
    · rcases hesc : escalateLoopE opois target baseR [] (jobRadii baseR) with e | up
      · constructor <;> simp [runLocateJob, hesc]
      · obtain ⟨u₁, ps⟩ := up
        constructor <;> simp [runLocateJob, hesc, hlen]
  · intro createdAt o baseR target pc cs hres
    obtain ⟨orev, opois, omodel⟩ := o
    rcases orev with e | rev
    · simp [runLocateJob] at hres
    · rcases hesc : escalateLoopE opois target baseR [] (jobRadii baseR) with e | up
      · simp [runLocateJob, hesc] at hres
      · obtain ⟨u₁, ps⟩ := up
        rcases omodel with e | parsed
        · simp [runLocateJob, hesc] at hres
        · by_cases h3 : parsed.candidates.length = 3
          · simp only [runLocateJob, hesc, h3, if_true, Option.some.injEq, Prod.mk.injEq] at hres
            obtain ⟨rfl, rfl⟩ := hres
            exact ⟨h3, rfl⟩
          · simp [runLocateJob, hesc, h3] at hres

/-! Shared concrete sample data for claim witnesses and counterexamples. -/

def candA : Candidate := ⟨"Big Ben, London", "A large clock tower over a river", 1, "Big Ben"⟩

def candB : Candidate := ⟨"Colosseum, Rome", "An ancient stone arena", 1, "Colosseum"⟩

def candC : Candidate :=
  ⟨"Golden Gate Bridge", "A red suspension bridge in fog", 1, "Golden Gate Bridge"⟩

def eiffelPoi : Poi := ⟨"Eiffel Tower", "attraction", 50, "tourism=attraction"⟩

/-- A well-formed first answer whose candidates name none of the sample POIs
and mention no coordinate conflict. -/
def answer3 : ModelAnswer := ⟨"A tall iron lattice tower at dusk", [candA, candB, candC]⟩

/-- A well-formed repair answer drawn from the POI list. -/
def repairGood : ModelAnswer :=
  ⟨"Lattice tower seen from the river bank",
   [⟨"Eiffel Tower, Paris", "Matches the nearby POI list", 1, "Eiffel Tower"⟩, candB, candC]⟩

/-- A malformed repair answer: only one candidate. -/
def repairBad : ModelAnswer := ⟨"Partial repair description", [candA]⟩

theorem c3_witness :
    (locateAfterParse "client" 0 false [] answer3 repairBad []).response =
      .contractViolation ∨
    ((answer3.candidates.length = 3) ∧
      (answer3.candidates = answer3.candidates ∨ answer3.candidates = repairBad.candidates)) :=
  Or.inr (c3_claim.1 "client" 0 false [] answer3 repairBad [] answer3.candidates (by decide))

end TravelBack

namespace TravelBack

/-- C1 counterexample: a job-variant locate run whose geo context contains the
Eiffel Tower POI and whose first structured answer names no POI and mentions
no coordinate conflict performs NO corrective re-invocation (one model call in
total, not two) and delivers the ungrounded answer as-is, so the claimed
"exactly one corrective re-invocation" fails on this locate run. -/
theorem c1_counterexample :
    (runLocateJob 0 ⟨.ok nullReverse, fun _ => .ok [eiffelPoi], .ok answer3⟩ 1200 8).pois =
      [eiffelPoi]
    ∧ anyMatches [eiffelPoi] answer3.candidates = false
    ∧ mentionsConflict answer3.candidates = false
    ∧ (runLocateJob 0
        ⟨.ok nullReverse, fun _ => .ok [eiffelPoi], .ok answer3⟩ 1200 8).modelCalls = 1
    ∧ (runLocateJob 0 ⟨.ok nullReverse, fun _ => .ok [eiffelPoi], .ok answer3⟩ 1200 8).result =
        some (answer3.photoContext, answer3.candidates) := by
  refine ⟨rfl, by decide, by decide, rfl, rfl⟩

/-- C1 as amended: the synchronous engine (the variant that implements
evidence grounding) issues exactly one corrective re-invocation whenever the
geo context has at least one POI and the first well-formed answer matches no
POI name and mentions no conflict; it returns the repaired answer when that
has exactly 3 candidates and otherwise falls back to the original answer
rather than erroring; the repair count never exceeds one anywhere, and the
job-based variant never issues a corrective re-invocation at all. -/
theorem c1_claim :
    (∀ (key : String) (now : Nat) (pois : List Poi) (first repair : ModelAnswer)
        (cache : PhotoCache),
        pois ≠ [] →
        anyMatches pois first.candidates = false →
        mentionsConflict first.candidates = false →
        first.candidates.length = 3 →
        (locateAfterParse key now true pois first repair cache).repairCalls = 1
        ∧ (locateAfterParse key now true pois first repair cache).response =
            (if repair.candidates.length = 3 then SyncResponse.ok repair.candidates
             else SyncResponse.ok first.candidates))
    ∧ (∀ (key : String) (now : Nat) (hasLoc : Bool) (pois : List Poi)
        (first repair : ModelAnswer) (cache : PhotoCache),
        (locateAfterParse key now hasLoc pois first repair cache).repairCalls ≤ 1)
    ∧ (∀ (createdAt : Nat) (o : JobOracles) (baseR target : Nat),
        (runLocateJob createdAt o baseR target).modelCalls ≤ 1) := by
  refine ⟨?_, ?_, ?_⟩
  · intro key now pois first repair cache hne hany hconf h3
    have hpois : (true && !pois.isEmpty) = true := by
      cases pois with
      | nil => exact absurd rfl hne
      | cons a l => rfl
    have hnr : needsRepair pois first.candidates = true := by
      simp [needsRepair, hany, hconf]
    constructor
    · rw [locateAfterParse_repairCalls, if_pos hpois, if_pos hnr]
    · rw [locateAfterParse_response, if_pos hpois, if_pos hnr]
      by_cases hr : repair.candidates.length = 3
      · rw [if_pos hr, if_pos hr]
      · rw [if_neg hr, if_neg hr]
        simp [validateCandidates, h3]
  · intro key now hasLoc pois first repair cache
    rw [locateAfterParse_repairCalls]
    split_ifs <;> omega
  · intro createdAt o baseR target
    obtain ⟨orev, opois, omodel⟩ := o
    rcases orev with e | rev
    · simp [runLocateJob]
    · rcases hesc : escalateLoopE opois target baseR [] (jobRadii baseR) with e | up
      · simp [runLocateJob, hesc]
      · obtain ⟨u₁, ps⟩ := up
        rcases omodel with e | parsed
        · simp [runLocateJob, hesc]
        · by_cases h3 : parsed.candidates.length = 3 <;> simp [runLocateJob, hesc, h3]

theorem c1_witness :
    (locateAfterParse "client" 0 true [eiffelPoi] answer3 repairGood []).repairCalls = 1
    ∧ (locateAfterParse "client" 0 true [eiffelPoi] answer3 repairGood []).response =
        (if repairGood.candidates.length = 3 then SyncResponse.ok repairGood.candidates
         else SyncResponse.ok answer3.candidates) :=
  c1_claim.1 "client" 0 [eiffelPoi] answer3 repairGood [] (by decide) (by decide)
    (by decide) (by decide)

theorem validateCandidates_not_badRequest (first : ModelAnswer) (msg : String) :
    validateCandidates first ≠ .badRequest msg := by
  simp only [validateCandidates]
  split_ifs <;> simp

theorem locateAfterParse_not_badRequest (key : String) (now : Nat) (hasLoc : Bool)
    (pois : List Poi) (first repair : ModelAnswer) (cache : PhotoCache) (msg : String) :
    (locateAfterParse key now hasLoc pois first repair cache).response ≠ .badRequest msg := by
  rw [locateAfterParse_response]
  split_ifs <;> first
    | exact validateCandidates_not_badRequest first msg
    | simp

/-- C8 counterexample: the job-based variant rejects a locate request carrying
an image but no lat/lon with a 400 — such a request is not accepted there, so
lat/lon are not optional in that variant. -/
theorem c8_counterexample :
    locateJobCreate true none none =
      .badRequest "Missing/invalid lat/lon. This server requires location."
    ∧ locateJobCreate true none none ≠ .accepted :=
  ⟨rfl, by decide⟩

/-- C8 as amended: in the synchronous variant a locate request with an image
and no lat/lon is accepted — the geo builder is never invoked, the geo state
(and with it both geo collaborators' call counts) is untouched, prompt
construction takes the no-location branch, and the response is never a 400;
the job-based variant instead rejects any such request with a 400 demanding
location. -/
theorem c8_claim :
    (∀ (oracle : Nat → Nat → GeoAttempt) (first repair : ModelAnswer) (key : String)
        (now : Nat) (lonQ : Option ℚ) (gst : GeoState) (cache : PhotoCache),
        (locateSyncHandler oracle first repair key now true none lonQ gst cache).geoInvoked
          = false
        ∧ (locateSyncHandler oracle first repair key now true none lonQ gst cache).geoState
          = gst
        ∧ (locateSyncHandler oracle first repair key now true none lonQ gst
            cache).promptLocation = some .noLocation
        ∧ ∀ msg, (locateSyncHandler oracle first repair key now true none lonQ gst
            cache).response ≠ .badRequest msg)
    ∧ (∀ lonQ : Option ℚ, locateJobCreate true none lonQ =
        .badRequest "Missing/invalid lat/lon. This server requires location.") := by
  constructor
  · intro oracle first repair key now lonQ gst cache
    rcases lonQ with _ | lon <;>
      exact ⟨rfl, rfl, rfl,
        fun msg => locateAfterParse_not_badRequest key now false [] first repair cache msg⟩
  · intro lonQ
    rcases lonQ with _ | lon <;> rfl

theorem c8_witness :
    (locateSyncHandler (fun _ _ => .deadlineExceeded) answer3 repairGood "client" 0 true
        none none ⟨[], 0⟩ []).geoInvoked = false
    ∧ (locateSyncHandler (fun _ _ => .deadlineExceeded) answer3 repairGood "client" 0 true
        none none ⟨[], 0⟩ []).response ≠ .badRequest "Missing form field image" :=
  ⟨(c8_claim.1 (fun _ _ => .deadlineExceeded) answer3 repairGood "client" 0 none
      ⟨[], 0⟩ []).1,
   (c8_claim.1 (fun _ _ => .deadlineExceeded) answer3 repairGood "client" 0 none
      ⟨[], 0⟩ []).2.2.2 "Missing form field image"⟩

theorem locateAfterParse_photoCache_repairBranch (key : String) (now : Nat)
    (pois : List Poi) (first repair : ModelAnswer) (cache : PhotoCache)
    (hpois : (true && !pois.isEmpty) = true)
    (hnr : needsRepair pois first.candidates = true)
    (hrpc : repair.photoContext ≠ "") :
    (locateAfterParse key now true pois first repair cache).photoCache =
      setPhotoContext key now repair.photoContext
        (if first.photoContext ≠ "" then setPhotoContext key now first.photoContext cache
         else cache) := by
  simp only [locateAfterParse]
  rw [if_pos hpois, if_pos hnr, if_pos hrpc]
  split_ifs <;> rfl

/-- C10: when the repair re-invocation parses but lacks exactly 3 candidates,
the synchronous handler answers with the ORIGINAL answer's candidates, yet the
photo-context cache entry for the client fingerprint has already been
overwritten with the repair answer's `photoContext`; a later `/api/chat` read
from the same fingerprint within the TTL therefore sees the discarded repair
description, not the one belonging to the returned candidates. -/
theorem c10_claim :
    ∀ (key : String) (now : Nat) (pois : List Poi) (first repair : ModelAnswer)
      (cache : PhotoCache),
      pois ≠ [] →
      anyMatches pois first.candidates = false →
      mentionsConflict first.candidates = false →
      first.candidates.length = 3 →
      repair.candidates.length ≠ 3 →
      repair.photoContext ≠ "" →
      (locateAfterParse key now true pois first repair cache).response =
        .ok first.candidates
      ∧ assocLookup key (locateAfterParse key now true pois first repair cache).photoCache =
          some ⟨repair.photoContext, now + PHOTO_TTL_MS⟩
      ∧ (∀ t : Nat, t ≤ now + PHOTO_TTL_MS →
          chatPhotoContext key t
              (locateAfterParse key now true pois first repair cache).photoCache =
            some repair.photoContext)
      ∧ (repair.photoContext ≠ first.photoContext →
          ∀ t : Nat, t ≤ now + PHOTO_TTL_MS →
          chatPhotoContext key t
              (locateAfterParse key now true pois first repair cache).photoCache ≠
            some first.photoContext) := by
  intro key now pois first repair cache hne hany hconf h3 hrep3 hrpc
  have hpois : (true && !pois.isEmpty) = true := by
    cases pois with
    | nil => exact absurd rfl hne
    | cons a l => rfl
  have hnr : needsRepair pois first.candidates = true := by
    simp [needsRepair, hany, hconf]
  have hcache := locateAfterParse_photoCache_repairBranch key now pois first repair cache
    hpois hnr hrpc
  have hresp : (locateAfterParse key now true pois first repair cache).response =
      .ok first.candidates := by
    rw [locateAfterParse_response, if_pos hpois, if_pos hnr, if_neg hrep3]
    simp [validateCandidates, h3]
  have hlook : assocLookup key
      (locateAfterParse key now true pois first repair cache).photoCache =
      some ⟨repair.photoContext, now + PHOTO_TTL_MS⟩ := by
    rw [hcache]
    simp only [setPhotoContext]
    exact assocLookup_assocSet_self _ _ _
  have hchat : ∀ t : Nat, t ≤ now + PHOTO_TTL_MS →
      chatPhotoContext key t
          (locateAfterParse key now true pois first repair cache).photoCache =
        some repair.photoContext := by
    intro t ht
    have hnlt : ¬ (now + PHOTO_TTL_MS < t) := by omega
    simp [chatPhotoContext, getPhotoContext, hlook, hnlt]
  refine ⟨hresp, hlook, hchat, ?_⟩
  intro hneq t ht hcon
  rw [hchat t ht] at hcon
  exact hneq (by injection hcon)

theorem c10_witness :
    (locateAfterParse "client" 0 true [eiffelPoi] answer3 repairBad []).response =
      .ok answer3.candidates
    ∧ chatPhotoContext "client" 60000
        (locateAfterParse "client" 0 true [eiffelPoi] answer3 repairBad []).photoCache =
      some repairBad.photoContext :=
  ⟨(c10_claim "client" 0 [eiffelPoi] answer3 repairBad [] (by decide) (by decide)
      (by decide) (by decide) (by decide) (by decide)).1,
   (c10_claim "client" 0 [eiffelPoi] answer3 repairBad [] (by decide) (by decide)
      (by decide) (by decide) (by decide) (by decide)).2.2.1 60000
     (by norm_num [PHOTO_TTL_MS])⟩

end TravelBack
